import Mathlib

/-!
Verification of the `database_util` migration scripts of `runaii98/runaii-chat`.

The development shallowly embeds the three migration scripts
(`improved-data-transfer.py`, `openwebui-migration.py`, `simple-migration.py`):
Python values flowing through the migrators become the inductive type
`PyValue`, the pure conversion and quoting helpers become Lean functions of
the same name, and the stateful per-table transfer loops become folds over an
explicit PostgreSQL connection state (`PgState`) that models the driver's
transaction behaviour (uncommitted pending rows, the aborted-transaction
state entered after a failed statement, commit and rollback).
-/

/-- A Python runtime value as it flows through the migration scripts:
`None`, `bool`, `int`, `str`, or `bytes` (a byte is a `Nat` below 256).
Python `bool` is a subclass of `int`; the embedding keeps them as separate
constructors and makes every `isinstance(v, int)` check in the translated
code accept both. -/
inductive PyValue where
  | none : PyValue
  | bool : Bool → PyValue
  | int : Int → PyValue
  | str : String → PyValue
  | bytes : List Nat → PyValue
deriving DecidableEq, Repr

/-- The NUL character, Python `'\x00'`. -/
def nullChar : Char := Char.ofNat 0

/-- Python truthiness `bool(v)` for the values of `PyValue`. -/
def pyTruthy : PyValue → Bool
  | .none => false
  | .bool b => b
  | .int n => decide (n ≠ 0)
  | .str s => decide (s ≠ "")
  | .bytes bs => decide (bs ≠ [])

/-- Decimal digits of `n`, least significant first; the first argument is
recursion fuel, which suffices whenever it is positive and at least the
number of digits (`n + 1` always works). -/
def toDigitsRev : Nat → Nat → List Nat
  | 0, _ => []
  | fuel + 1, n => if n < 10 then [n] else n % 10 :: toDigitsRev fuel (n / 10)

/-- The ASCII digit character for a digit value below 10. -/
def digitChar10 (d : Nat) : Char := Char.ofNat (48 + d)

/-- Python `str(n)` for a natural number: its decimal representation. -/
def natDecimal (n : Nat) : String := ⟨(toDigitsRev (n + 1) n).reverse.map digitChar10⟩

/-- A hexadecimal digit character (for the `\xHH` escapes of `repr(bytes)`). -/
def hexDigit (d : Nat) : Char :=
  if d < 10 then Char.ofNat (48 + d) else Char.ofNat (87 + d)

/-- The backslash character. -/
def bslashChar : Char := Char.ofNat 92

/-- The single-quote character. -/
def squoteChar : Char := Char.ofNat 39

/-- One byte of the body of Python `str(b)` for a bytes object: printable
ASCII stays itself, `\t`, `\n`, `\r`, quote and backslash are escaped, and
everything else becomes a `\xHH` escape. -/
def escapeByte (b : Nat) : List Char :=
  if b = 9 then [bslashChar, 't']
  else if b = 10 then [bslashChar, 'n']
  else if b = 13 then [bslashChar, 'r']
  else if b = 39 then [bslashChar, squoteChar]
  else if b = 92 then [bslashChar, bslashChar]
  else if 32 ≤ b ∧ b ≤ 126 then [Char.ofNat b]
  else [bslashChar, 'x', hexDigit (b / 16 % 16), hexDigit (b % 16)]

/-- Python `str(b)` for a bytes value: `b'...'` with the bytes escaped. -/
def bytesRepr (bs : List Nat) : String :=
  ⟨'b' :: squoteChar :: ((bs.map escapeByte).flatten ++ [squoteChar])⟩

/-- Python `str(value)` for the values of `PyValue`. -/
def pyStr : PyValue → String
  | .none => "None"
  | .bool true => "True"
  | .bool false => "False"
  | .int n => if n < 0 then "-" ++ natDecimal n.natAbs else natDecimal n.natAbs
  | .str s => s
  | .bytes bs => bytesRepr bs

/-- Python `s.isdigit()` restricted to ASCII: the string is nonempty and
every character is a decimal digit (the migrated data never contains the
non-ASCII code points Python additionally accepts). -/
def pyIsdigit (s : String) : Bool := !s.data.isEmpty && s.data.all Char.isDigit

/-- Value of an ASCII decimal string, Python `int(s)` on an `isdigit` string. -/
def strToNat (s : String) : Nat :=
  s.data.foldl (fun a c => a * 10 + (c.toNat - 48)) 0

/-- Python `int(value)` on the values that can reach the call in
`convert_value` (an `int`, or a string that passed `isdigit`). -/
def pyInt : PyValue → Int
  | .int n => n
  | .str s => Int.ofNat (strToNat s)
  | .bool b => if b then 1 else 0
  | _ => 0

/-- Replace every occurrence of the character `pat` in a character list by
the list `rep`; the core of Python `s.replace(pat, rep)` for a one-character
pattern. -/
def replaceCharList : List Char → Char → List Char → List Char
  | [], _, _ => []
  | c :: cs, pat, rep =>
    if c = pat then rep ++ replaceCharList cs pat rep
    else c :: replaceCharList cs pat rep

/-- Python `s.replace(pat, rep)` for a single-character pattern `pat`. -/
def pyReplaceChar (s : String) (pat : Char) (rep : String) : String :=
  ⟨replaceCharList s.data pat rep.data⟩

/-- Python `s.startswith(pre)`: `pre`'s characters are a prefix of `s`'s. -/
def pyStartsWith (s pre : String) : Bool := pre.data.isPrefixOf s.data

/-- Python `c.lower()` on a character: ASCII letters are lowered, everything
else (all the data the scripts migrate is ASCII) is unchanged. -/
def pyLowerChar (c : Char) : Char :=
  if 65 ≤ c.toNat ∧ c.toNat ≤ 90 then Char.ofNat (c.toNat + 32) else c

/-- Python `s.lower()`, applied characterwise. -/
def pyLower (s : String) : String := ⟨s.data.map pyLowerChar⟩

/-- The string truth set of `convert_value`'s boolean branch
(`improved-data-transfer.py` line 35). -/
def boolTrueStrings : List String := ["true", "1", "yes", "t"]

/-- `convert_value(table_name, column_name, value, target_type)` from
`improved-data-transfer.py` lines 29-45, translated branch by branch:
boolean targets go through `isinstance(value, int)` (which accepts Python
bools), then `isinstance(value, str)`, then `bool(value)`; integer/bigint
targets keep `None` and otherwise yield `int(value)` when `str(value)` is
all digits and `None` when not; character/text targets keep `None` and
otherwise strip NUL bytes from `str(value)`; all other target types pass
the value through unchanged. -/
def convert_value (tableName columnName : String) (value : PyValue)
    (targetType : String) : PyValue :=
  if targetType = "boolean" then
    match value with
    | .bool b => .bool b
    | .int n => .bool (decide (n ≠ 0))
    | .str s => .bool (decide (pyLower s ∈ boolTrueStrings))
    | v => .bool (pyTruthy v)
  else if targetType = "integer" ∨ targetType = "bigint" then
    match value with
    | .none => .none
    | v => if pyIsdigit (pyStr v) then .int (pyInt v) else .none
  else if pyStartsWith targetType "character varying" = true ∨ targetType = "text" then
    match value with
    | .none => .none
    | v => .str (pyReplaceChar (pyStr v) nullChar "")
  else value

/-- The PostgreSQL reserved words of `openwebui-migration.py` lines 105-110. -/
def reserved_keywords : List String :=
  ["user", "group", "order", "table", "select", "where", "from",
   "index", "constraint", "function", "procedure", "trigger", "view",
   "schema", "database", "column", "primary", "foreign", "key",
   "references", "unique", "check", "default", "null", "not"]

/-- `get_pg_safe_identifier` from `openwebui-migration.py` lines 103-111:
wrap the identifier in double quotes exactly when its lowercase form is in
the reserved-word set, otherwise return it unchanged. -/
def get_pg_safe_identifier (identifier : String) : String :=
  if pyLower identifier ∈ reserved_keywords then "\"" ++ identifier ++ "\""
  else identifier

/-- `get_sqlite_safe_identifier` from `openwebui-migration.py` lines 99-101:
always wrap in double quotes. -/
def get_sqlite_safe_identifier (identifier : String) : String :=
  "\"" ++ identifier ++ "\""

/-- The column-name quoting of `simple-migration.py` lines 55 and 82: quote
only when the lowercase name is `user`, `group` or `order`. -/
def simpleQuoteCol (name : String) : String :=
  if pyLower name ∈ ["user", "group", "order"] then "\"" ++ name ++ "\""
  else name

/-- Is a byte a UTF-8 continuation byte (`0x80`-`0xBF`)? -/
def utf8Cont (b : Nat) : Bool := 128 ≤ b && b ≤ 191

/-- Valid range for the first continuation byte of a 3-byte sequence
(narrowed for `0xE0` to exclude overlong forms and for `0xED` to exclude
surrogates, as CPython's UTF-8 decoder does). -/
def utf8Cont3 (b b2 : Nat) : Bool :=
  if b = 224 then 160 ≤ b2 && b2 ≤ 191
  else if b = 237 then 128 ≤ b2 && b2 ≤ 159
  else utf8Cont b2

/-- Valid range for the first continuation byte of a 4-byte sequence
(narrowed for `0xF0` and `0xF4` to exclude overlong forms and code points
beyond `U+10FFFF`). -/
def utf8Cont4 (b b2 : Nat) : Bool :=
  if b = 240 then 144 ≤ b2 && b2 ≤ 191
  else if b = 244 then 128 ≤ b2 && b2 ≤ 143
  else utf8Cont b2

/-- Decode one UTF-8 sequence starting with byte `b` followed by `rest`:
returns the decoded character (`none` for an invalid sequence) and the
remaining bytes after the consumed sequence; on an invalid sequence the
maximal valid prefix (at least the start byte) is consumed. -/
def utf8Step (b : Nat) (rest : List Nat) : Option Char × List Nat :=
  if b ≤ 127 then (some (Char.ofNat b), rest)
  else if 194 ≤ b ∧ b ≤ 223 then
    match rest with
    | [] => (none, [])
    | b2 :: r2 =>
      if utf8Cont b2 then (some (Char.ofNat ((b - 192) * 64 + (b2 - 128))), r2)
      else (none, b2 :: r2)
  else if 224 ≤ b ∧ b ≤ 239 then
    match rest with
    | [] => (none, [])
    | b2 :: r2 =>
      if utf8Cont3 b b2 then
        match r2 with
        | [] => (none, [])
        | b3 :: r3 =>
          if utf8Cont b3 then
            (some (Char.ofNat ((b - 224) * 4096 + (b2 - 128) * 64 + (b3 - 128))), r3)
          else (none, b3 :: r3)
      else (none, b2 :: r2)
  else if 240 ≤ b ∧ b ≤ 244 then
    match rest with
    | [] => (none, [])
    | b2 :: r2 =>
      if utf8Cont4 b b2 then
        match r2 with
        | [] => (none, [])
        | b3 :: r3 =>
          if utf8Cont b3 then
            match r3 with
            | [] => (none, [])
            | b4 :: r4 =>
              if utf8Cont b4 then
                (some (Char.ofNat
                  ((b - 240) * 262144 + (b2 - 128) * 4096 + (b3 - 128) * 64 + (b4 - 128))), r4)
              else (none, b4 :: r4)
          else (none, b3 :: r3)
      else (none, b2 :: r2)
  else (none, rest)

/-- Prepend a character to a string. -/
def strCons (c : Char) (s : String) : String := ⟨c :: s.data⟩

/-- The Unicode replacement character `U+FFFD`. -/
def uFFFD : Char := Char.ofNat 65533

/-- Python `bytes.decode('utf-8', errors=...)`: `replace` selects
replacement-character substitution for invalid sequences (`errors='replace'`,
as `openwebui-migration.py` line 293 passes), `replace = false` is strict
decoding, which fails on the first invalid sequence. -/
def pyDecodeUtf8 (replace : Bool) (bs : List Nat) : Except Unit String :=
  match bs with
  | [] => Except.ok ""
  | b :: rest =>
    have h : ((utf8Step b rest).2).length < (b :: rest).length := by
      have hle : (utf8Step b rest).2.length ≤ rest.length := by
        unfold utf8Step
        repeat' split
        all_goals try simp_all [List.length_cons]
        all_goals omega
      simp only [List.length_cons]
      omega
    match (utf8Step b rest).1 with
    | some c => (pyDecodeUtf8 replace (utf8Step b rest).2).map (strCons c)
    | none =>
      if replace then (pyDecodeUtf8 replace (utf8Step b rest).2).map (strCons uFFFD)
      else Except.error ()
termination_by bs.length

/-- Python `bytes.decode('latin1', errors='replace')`: each byte maps to the
code point of the same value (never fails). -/
def latin1Decode (bs : List Nat) : String := ⟨bs.map Char.ofNat⟩

/-- The row-cleaning step of `openwebui-migration.py` lines 290-301, applied
to one cell: bytes are decoded as UTF-8 with replacement, falling back to
latin1 if that raised; strings have NUL bytes stripped; anything else is
passed through. -/
def cleanItem : PyValue → PyValue
  | .bytes bs =>
    match pyDecodeUtf8 true bs with
    | .ok s => .str s
    | .error _ => .str (latin1Decode bs)
  | .str s => .str (pyReplaceChar s nullChar "")
  | v => v

/-- A row as the scripts handle it: the tuple of cell values. -/
abbrev Row := List PyValue

/-- The state of the psycopg2 target connection, at the granularity the
migration loops observe it: `committed` rows are durable, `pending` rows
were inserted in the current transaction but not yet committed, and
`aborted` records PostgreSQL's failed-transaction state — after any
statement of a transaction fails, every further statement in that
transaction fails with `InFailedSqlTransaction` until a rollback (or a
commit, which PostgreSQL turns into a rollback) ends it. -/
structure PgState where
  committed : List Row
  pending : List Row
  aborted : Bool
deriving DecidableEq, Repr

/-- The empty target table state (the scripts clear the target table and
commit before inserting). -/
def pgInit : PgState := ⟨[], [], false⟩

/-- `cursor.execute(insert_query, row)`: fails immediately when the
transaction is aborted; otherwise succeeds exactly when the driver accepts
the row (`insertOk`), and a failure puts the transaction into the aborted
state. Returns the new state and whether the statement succeeded. -/
def pgExecInsert (insertOk : Row → Bool) (st : PgState) (r : Row) :
    PgState × Bool :=
  if st.aborted then (st, false)
  else if insertOk r then ({ st with pending := st.pending ++ [r] }, true)
  else ({ st with aborted := true }, false)

/-- `conn.commit()`: makes the pending rows durable, unless the transaction
is aborted, in which case PostgreSQL discards them (psycopg2's `commit` on a
failed transaction ends it without raising). -/
def pgCommit (st : PgState) : PgState :=
  if st.aborted then ⟨st.committed, [], false⟩
  else ⟨st.committed ++ st.pending, [], false⟩

/-- `conn.rollback()`: discards the pending rows and clears the aborted
state. -/
def pgRollback (st : PgState) : PgState := ⟨st.committed, [], false⟩

/-- `BATCH_SIZE` from `openwebui-migration.py` line 17. -/
def BATCH_SIZE : Nat := 500

/-- Split a list into consecutive chunks of size `k` (the last may be
shorter); the first argument is recursion fuel, sufficient whenever it is
at least the list's length. This is the effect of the
`LIMIT {BATCH_SIZE} OFFSET {processed_rows}` pagination of
`openwebui-migration.py` lines 274-283 over a source table that does not
change during the loop. -/
def toBatchesAux (k : Nat) : Nat → List Row → List (List Row)
  | _, [] => []
  | 0, l => [l]
  | fuel + 1, l => l.take k :: toBatchesAux k fuel (l.drop k)

/-- The batches the pagination loop reads: chunks of `BATCH_SIZE`. -/
def toBatches (k : Nat) (l : List Row) : List (List Row) :=
  toBatchesAux k l.length l

/-- One batch of the per-row loop of `openwebui-migration.py` lines 286-320:
each raw row is cleaned cell by cell, then inserted; a failed insert appends
one entry to `failed_rows` and the loop continues with the next row (the
connection state keeps the aborted flag, since this script never rolls back
inside a batch). Returns the connection state and the number of failures
added. -/
def owProcessBatch (insertOk : Row → Bool) (st : PgState) (batch : List Row) :
    PgState × Nat :=
  batch.foldl
    (fun acc r =>
      let cleaned := r.map cleanItem
      let res := pgExecInsert insertOk acc.1 cleaned
      (res.1, if res.2 then acc.2 else acc.2 + 1))
    (st, 0)

/-- One iteration of the batch loop of `openwebui-migration.py`
lines 274-327: process the batch row by row, then `pg_conn.commit()`
(line 323), accumulating the failure count. -/
def owTableStep (insertOk : Row → Bool) (acc : PgState × Nat)
    (batch : List Row) : PgState × Nat :=
  let r := owProcessBatch insertOk acc.1 batch
  (pgCommit r.1, acc.2 + r.2)

/-- The data-migration phase for one table in `openwebui-migration.py`
lines 251-336: the target table is truncated and committed (modelled by
starting from `pgInit`), the source rows are read in batches, each batch is
processed row by row and then committed (line 323). Returns the final
connection state, `successful_rows` (`processed_rows - len(failed_rows)`,
line 334, where the pagination always ends with `processed_rows` equal to
the row count) and `len(failed_rows)`. -/
def owMigrateTable (insertOk : Row → Bool) (rows : List Row) :
    PgState × Nat × Nat :=
  let res := (toBatches BATCH_SIZE rows).foldl (owTableStep insertOk) (pgInit, 0)
  (res.1, rows.length - res.2, res.2)

/-- The tables `openwebui-migration.py` line 180 (and `simple-migration.py`
line 39) skip. -/
def skipTables : List String := ["migratehistory", "alembic_version", "sqlite_sequence"]

/-- The table loop of `openwebui-migration.py` `migrate` lines 178-357:
system tables are skipped, every other table runs its data migration, and
`total_migrated_rows` / `total_failed_rows` accumulate the per-table
tallies (lines 334-336). -/
def owMigrateRun (insertOk : Row → Bool) (tables : List (String × List Row)) :
    Nat × Nat :=
  tables.foldl
    (fun acc t =>
      if pyLower t.1 ∈ skipTables then acc
      else
        let r := owMigrateTable insertOk t.2
        (acc.1 + r.2.1, acc.2 + r.2.2))
    (0, 0)

/-- `migrate`'s return value, `openwebui-migration.py` line 363:
`total_failed_rows == 0`. -/
def owMigrateReturn (insertOk : Row → Bool)
    (tables : List (String × List Row)) : Bool :=
  decide ((owMigrateRun insertOk tables).2 = 0)

/-- The process exit status of `openwebui-migration.py` lines 389-399: the
script exits 1 when `migrate()` returned falsy and falls off the end of the
program (status 0) when it returned truthy. -/
def owExitStatus (insertOk : Row → Bool)
    (tables : List (String × List Row)) : Nat :=
  if owMigrateReturn insertOk tables then 0 else 1

/-- A column of the target schema as `improved-data-transfer.py` uses it:
its name and its declared data type. -/
abbrev ColSpec := String × String

/-- The per-row conversion of `improved-data-transfer.py` lines 128-132:
`zip(common_columns, row)`, each cell converted by `convert_value` against
the column's target type. -/
def convertRow (tableName : String) (cols : List ColSpec) (row : Row) : Row :=
  (cols.zip row).map (fun p => convert_value tableName p.1.1 p.2 p.1.2)

/-- One iteration of the row loop of `improved-data-transfer.py`
`transfer_data` lines 125-140: the row is converted and inserted; a
successful insert increments `success_count`, a failed one is caught and
answered with `target_conn.rollback()` (line 139) — which discards every
row inserted since the last commit — before continuing. -/
def transferRowStep (tableName : String) (cols : List ColSpec)
    (insertOk : Row → Bool) (acc : PgState × Nat) (r : Row) : PgState × Nat :=
  let conv := convertRow tableName cols r
  let ex := pgExecInsert insertOk acc.1 conv
  if ex.2 then (ex.1, acc.2 + 1) else (pgRollback ex.1, acc.2)

/-- The per-table loop of `improved-data-transfer.py` `transfer_data`
lines 107-143: the target table is cleared and committed (start from
`pgInit`), every source row goes through `transferRowStep` inside one
transaction, and a single `target_conn.commit()` (line 142) runs after the
loop. Returns the final connection state and `success_count`. -/
def transferTable (tableName : String) (cols : List ColSpec)
    (insertOk : Row → Bool) (rows : List Row) : PgState × Nat :=
  let res := rows.foldl (transferRowStep tableName cols insertOk) (pgInit, 0)
  (pgCommit res.1, res.2)

/-- A table job for `improved-data-transfer.py`: name, target schema of the
common columns, and source rows. -/
abbrev TableJob := String × List ColSpec × List Row

/-- The run of `transfer_data` over its table list (lines 68-151): each
table is processed independently; the function then reaches line 151 and
returns `True` regardless of how many rows failed. -/
def transferRun (insertOk : Row → Bool) (tables : List TableJob) :
    List (PgState × Nat) × Bool :=
  (tables.map (fun t => transferTable t.1 t.2.1 insertOk t.2.2), true)

/-- The failed-row tally of a `transfer_data` run: per table, the rows that
did not insert (`len(rows) - success_count`, the quantity line 143 prints). -/
def transferFailedTotal (insertOk : Row → Bool) (tables : List TableJob) : Nat :=
  tables.foldl
    (fun acc t => acc + (t.2.2.length - (transferTable t.1 t.2.1 insertOk t.2.2).2))
    0

/-- The process exit status of `improved-data-transfer.py` lines 162-164:
`sys.exit(0 if success else 1)` on `transfer_data()`'s boolean result. -/
def transferExitStatus (insertOk : Row → Bool) (tables : List TableJob) : Nat :=
  if (transferRun insertOk tables).2 then 0 else 1

/-- The column list of a generated CREATE/INSERT statement in
`openwebui-migration.py` (lines 223 and 304): every column name goes through
`get_pg_safe_identifier`. -/
def pgColNames (schema : List String) : List String :=
  schema.map get_pg_safe_identifier

/-- The 100-row source table of the spec's row-isolation scenario: rows
`[0]` through `[99]` in a single integer column. -/
def rows100 : List Row := (List.range 100).map (fun i => [PyValue.int i])

/-- Insert acceptance that rejects exactly the row with value 49 — row 50
of 100 in 1-based counting (e.g. that row violates a constraint). -/
def rejectRow50 : Row → Bool := fun r => decide (r ≠ [PyValue.int 49])

/-- A 3-row source table: rows `[0]`, `[1]`, `[2]`. -/
def rows3 : List Row := [[PyValue.int 0], [PyValue.int 1], [PyValue.int 2]]

/-- Insert acceptance that rejects exactly the row with value 1. -/
def rejectMiddle : Row → Bool := fun r => decide (r ≠ [PyValue.int 1])

/-- A one-table `transfer_data` run whose table has two source rows of
which the second fails to insert. -/
def oneBadRowJob : List TableJob :=
  [("chat", [("id", "integer")], [[PyValue.int 0], [PyValue.int 1]])]

/-- One UTF-8 decoding step never produces a longer remainder than its
input. -/
theorem utf8Step_length_le (b : Nat) (rest : List Nat) :
    (utf8Step b rest).2.length ≤ rest.length := by
  unfold utf8Step
  repeat' split
  all_goals try simp_all [List.length_cons]
  all_goals omega

/-- UTF-8 decoding in replace mode consumes the whole input without ever
reaching the error case: every invalid sequence becomes replacement
characters instead. -/
theorem pyDecodeUtf8_replace_ok :
    ∀ bs : List Nat, ∃ s, pyDecodeUtf8 true bs = Except.ok s := by
  have main : ∀ n, ∀ bs : List Nat, bs.length ≤ n →
      ∃ s, pyDecodeUtf8 true bs = Except.ok s := by
    intro n
    induction n with
    | zero =>
      intro bs h
      have hnil : bs = [] := List.eq_nil_of_length_eq_zero (Nat.le_zero.mp h)
      subst hnil
      exact ⟨"", by simp [pyDecodeUtf8]⟩
    | succ n ih =>
      intro bs h
      cases bs with
      | nil => exact ⟨"", by simp [pyDecodeUtf8]⟩
      | cons b rest =>
        have hlen : ((utf8Step b rest).2).length ≤ n := by
          have := utf8Step_length_le b rest
          simp only [List.length_cons] at h
          omega
        obtain ⟨s, hs⟩ := ih _ hlen
        rw [pyDecodeUtf8]
        cases hoc : (utf8Step b rest).1 with
        | none => exact ⟨strCons uFFFD s, by simp [hs, Except.map]⟩
        | some c => exact ⟨strCons c s, by simp [hs, Except.map]⟩
  exact fun bs => main bs.length bs le_rfl

/-- Replacing a one-character pattern by the empty string is filtering the
pattern character out. -/
theorem replaceCharList_nil (l : List Char) (pat : Char) :
    replaceCharList l pat [] = l.filter (fun c => c ≠ pat) := by
  induction l with
  | nil => rfl
  | cons c cs ih =>
    by_cases h : c = pat <;> simp [replaceCharList, List.filter_cons, h, ih]

/-- Stripping a character twice strips it once. -/
theorem pyReplaceChar_nil_idem (s : String) (pat : Char) :
    pyReplaceChar (pyReplaceChar s pat "") pat "" = pyReplaceChar s pat "" := by
  simp only [pyReplaceChar, replaceCharList_nil]
  congr 1
  rw [List.filter_filter]
  simp

/-- Every entry `toDigitsRev` produces is a digit value. -/
theorem toDigitsRev_lt_ten :
    ∀ fuel n d : Nat, d ∈ toDigitsRev fuel n → d < 10 := by
  intro fuel
  induction fuel with
  | zero => intro n d h; simp [toDigitsRev] at h
  | succ fuel ih =>
    intro n d h
    by_cases hn : n < 10
    · simp [toDigitsRev, hn] at h
      omega
    · simp [toDigitsRev, hn] at h
      rcases h with h | h
      · omega
      · exact ih _ _ h

/-- `toDigitsRev` with positive fuel is never empty. -/
theorem toDigitsRev_ne_nil (fuel n : Nat) : toDigitsRev (fuel + 1) n ≠ [] := by
  by_cases hn : n < 10 <;> simp [toDigitsRev, hn]

/-- The character of a digit value is an ASCII digit. -/
theorem isDigit_digitChar10 (d : Nat) (h : d < 10) :
    (digitChar10 d).isDigit = true := by
  interval_cases d <;> decide

/-- The decimal representation of a natural number passes `isdigit`. -/
theorem pyIsdigit_natDecimal (n : Nat) : pyIsdigit (natDecimal n) = true := by
  simp only [pyIsdigit, natDecimal, Bool.and_eq_true, List.all_eq_true]
  constructor
  · simp only [Bool.not_eq_true']
    rw [List.isEmpty_eq_false_iff_exists_mem]
    have := toDigitsRev_ne_nil n n
    rcases hd : toDigitsRev (n + 1) n with _ | ⟨d, ds⟩
    · exact absurd hd this
    · exact ⟨digitChar10 d, by simp [hd]⟩
  · intro c hc
    simp only [List.mem_map, List.mem_reverse] at hc
    obtain ⟨d, hd, rfl⟩ := hc
    exact isDigit_digitChar10 d (toDigitsRev_lt_ten _ _ _ hd)

/-- `str(bytes)` starts with the letter `b`, so it never passes `isdigit`. -/
theorem pyIsdigit_bytesRepr (bs : List Nat) : pyIsdigit (bytesRepr bs) = false := by
  simp [pyIsdigit, bytesRepr]

/-- A string starting with a minus sign never passes `isdigit` — in
particular `str(n)` for a negative integer `n`. -/
theorem pyIsdigit_dash (t : String) : pyIsdigit ("-" ++ t) = false := by
  have h : ("-" ++ t).data = '-' :: t.data := rfl
  have hc : Char.isDigit '-' = false := by decide
  simp [pyIsdigit, h, hc]

/-- Claim C6: coercion is idempotent — for every target type string and
every value, `convert_value` applied to its own output returns that output
unchanged. -/
theorem convert_value_idempotent (t c ty : String) (v : PyValue) :
    convert_value t c (convert_value t c v ty) ty = convert_value t c v ty := by
  by_cases hb : ty = "boolean"
  · subst hb
    cases v <;> rfl
  · by_cases hi : ty = "integer" ∨ ty = "bigint"
    · have hbranch : ∀ w, convert_value t c w ty =
          (match w with
           | .none => .none
           | w => if pyIsdigit (pyStr w) then .int (pyInt w) else .none) := by
        intro w
        unfold convert_value
        rw [if_neg hb, if_pos hi]
      simp only [hbranch]
      cases v with
      | none => simp
      | int n =>
        cases hd : pyIsdigit (pyStr (.int n)) <;> simp [hd, pyInt]
      | str s =>
        cases hd : pyIsdigit (pyStr (.str s))
        · simp [hd]
        · have hd2 : pyIsdigit s = true := hd
          have hlt : ¬ ((Int.ofNat (strToNat s)) < 0) :=
            Int.not_lt.mpr (Int.ofNat_zero_le _)
          simp [hd2, pyInt, pyStr, hlt, Int.natAbs_ofNat, pyIsdigit_natDecimal]
          have hlt2 : ¬ ((strToNat s : Int) < 0) := by omega
          rw [if_neg hlt2]
          exact pyIsdigit_natDecimal _
      | bool b =>
        have hd : pyIsdigit (pyStr (.bool b)) = false := by cases b <;> decide
        simp [hd]
      | bytes bs =>
        have hd := pyIsdigit_bytesRepr bs
        simp [pyStr, hd]
    · by_cases ht : pyStartsWith ty "character varying" = true ∨ ty = "text"
      · have hbranch : ∀ w, convert_value t c w ty =
            (match w with
             | .none => .none
             | w => .str (pyReplaceChar (pyStr w) nullChar "")) := by
          intro w
          unfold convert_value
          rw [if_neg hb, if_neg hi, if_pos ht]
        simp only [hbranch]
        cases v <;> simp [pyStr, pyReplaceChar_nil_idem]
      · have hid : ∀ w, convert_value t c w ty = w := by
          intro w
          unfold convert_value
          rw [if_neg hb, if_neg hi, if_neg ht]
        rw [hid, hid]

/-- Claim C4: boolean coercion — an integer input yields true exactly when
it is nonzero, a string input yields true exactly when its lowercase form
is one of `true`, `1`, `yes`, `t`; in particular `1`, `"true"`, `"Yes"`,
`"T"` yield true and `0`, `"false"`, `""`, `"no"` yield false. -/
theorem boolean_coercion_contract :
    (∀ t c : String, ∀ n : Int,
        convert_value t c (.int n) "boolean" = .bool (decide (n ≠ 0))) ∧
    (∀ t c s : String,
        convert_value t c (.str s) "boolean" =
          .bool (decide (pyLower s ∈ boolTrueStrings))) ∧
    convert_value "t" "c" (.int 1) "boolean" = .bool true ∧
    convert_value "t" "c" (.str "true") "boolean" = .bool true ∧
    convert_value "t" "c" (.str "Yes") "boolean" = .bool true ∧
    convert_value "t" "c" (.str "T") "boolean" = .bool true ∧
    convert_value "t" "c" (.int 0) "boolean" = .bool false ∧
    convert_value "t" "c" (.str "false") "boolean" = .bool false ∧
    convert_value "t" "c" (.str "") "boolean" = .bool false ∧
    convert_value "t" "c" (.str "no") "boolean" = .bool false :=
  ⟨fun _ _ _ => rfl, fun _ _ _ => rfl, by decide, by decide, by decide, by decide,
   by decide, by decide, by decide, by decide⟩

/-- Claim C9: for a boolean target, a null input is coerced to `false`
(the code falls through to `bool(None)`), for every table and column name,
whereas the integer and text families preserve null. -/
theorem boolean_null_coerces_to_false (t c : String) :
    convert_value t c .none "boolean" = .bool false ∧
    convert_value t c .none "integer" = .none ∧
    convert_value t c .none "bigint" = .none ∧
    convert_value t c .none "text" = .none ∧
    convert_value t c .none "character varying(255)" = .none :=
  ⟨rfl, rfl, rfl, rfl, rfl⟩

/-- Counterexample to claim C5 as stated: a number input need not yield its
parsed integer value — the integer `-5` (parsed value `-5`) and the Python
integer `True` (parsed value 1) are both mapped to null, because
`str(value).isdigit()` is false for `"-5"` and `"True"`. -/
theorem integer_coercion_counterexample :
    convert_value "t" "c" (PyValue.int (-5)) "integer" = PyValue.none ∧
    PyValue.none ≠ PyValue.int (-5) ∧
    convert_value "t" "c" (PyValue.bool true) "integer" = PyValue.none ∧
    PyValue.none ≠ PyValue.int 1 := by
  decide

/-- Claim C5 (amended): integer coercion for integer and bigint targets —
null yields null; a value whose `str()` form is all digits yields its
parsed integer value: a digit string yields its numeric value and a
nonnegative integer yields itself; every other value — a negative integer,
a boolean, a non-digit string — yields null without an error; `"42"` yields
42 and `"abc"` yields null. -/
theorem integer_coercion_contract :
    (∀ t c : String,
        convert_value t c .none "integer" = .none ∧
        convert_value t c .none "bigint" = .none) ∧
    (∀ t c s : String, pyIsdigit s = true →
        convert_value t c (.str s) "integer" = .int (strToNat s) ∧
        convert_value t c (.str s) "bigint" = .int (strToNat s)) ∧
    (∀ t c s : String, pyIsdigit s = false →
        convert_value t c (.str s) "integer" = .none ∧
        convert_value t c (.str s) "bigint" = .none) ∧
    (∀ t c : String, ∀ n : Int, 0 ≤ n →
        convert_value t c (.int n) "integer" = .int n ∧
        convert_value t c (.int n) "bigint" = .int n) ∧
    (∀ t c : String, ∀ n : Int, n < 0 →
        convert_value t c (.int n) "integer" = .none ∧
        convert_value t c (.int n) "bigint" = .none) ∧
    (∀ t c : String, ∀ b : Bool,
        convert_value t c (.bool b) "integer" = .none ∧
        convert_value t c (.bool b) "bigint" = .none) ∧
    convert_value "t" "c" (.str "42") "integer" = .int 42 ∧
    convert_value "t" "c" (.str "abc") "integer" = .none := by
  refine ⟨fun t c => ⟨rfl, rfl⟩, ?_, ?_, ?_, ?_, ?_, by decide, by decide⟩
  · intro t c s h
    have h2 : pyIsdigit (pyStr (.str s)) = true := h
    constructor <;> simp [convert_value, h2, pyInt]
  · intro t c s h
    have h2 : pyIsdigit (pyStr (.str s)) = false := h
    constructor <;> simp [convert_value, h2]
  · intro t c n hn
    have hlt : ¬ (n < 0) := by omega
    have h2 : pyIsdigit (pyStr (.int n)) = true := by
      simp only [pyStr, if_neg hlt]
      exact pyIsdigit_natDecimal _
    constructor <;> simp [convert_value, h2, pyInt]
  · intro t c n hn
    have h2 : pyIsdigit (pyStr (.int n)) = false := by
      simp only [pyStr, if_pos hn]
      exact pyIsdigit_dash _
    constructor <;> simp [convert_value, h2]
  · intro t c b
    have h2 : pyIsdigit (pyStr (.bool b)) = false := by cases b <;> decide
    constructor <;> simp [convert_value, h2]

/-- Witness for claim C5: each hypothesis-bearing clause instantiated at a
concrete input — the digit string `"42"`, the non-digit string `"abc"`, the
nonnegative integer 7 and the negative integer -5. -/
theorem integer_coercion_contract_witness :
    pyIsdigit "42" = true ∧
    convert_value "t" "c" (PyValue.str "42") "integer" = PyValue.int 42 ∧
    pyIsdigit "abc" = false ∧
    convert_value "t" "c" (PyValue.str "abc") "integer" = PyValue.none ∧
    (0 : Int) ≤ 7 ∧
    convert_value "t" "c" (PyValue.int 7) "integer" = PyValue.int 7 ∧
    (-5 : Int) < 0 ∧
    convert_value "t" "c" (PyValue.int (-5)) "integer" = PyValue.none := by
  refine ⟨by decide, ?_, by decide, ?_, by decide, ?_, by decide, ?_⟩
  · have h := (integer_coercion_contract.2.1 "t" "c" "42" (by decide)).1
    rw [h]
    decide
  · exact (integer_coercion_contract.2.2.1 "t" "c" "abc" (by decide)).1
  · exact (integer_coercion_contract.2.2.2.1 "t" "c" 7 (by decide)).1
  · exact (integer_coercion_contract.2.2.2.2.1 "t" "c" (-5) (by decide)).1

/-- Claim C7: `get_pg_safe_identifier` wraps an identifier in double quotes
exactly when its lowercase form is a reserved word and returns it unchanged
otherwise; every column name of a generated statement goes through it, and
`user`, `order`, `group` are quoted by both scripts' quoting functions. -/
theorem identifier_quoting_contract :
    (∀ idf : String,
        get_pg_safe_identifier idf = "\"" ++ idf ++ "\"" ↔
          pyLower idf ∈ reserved_keywords) ∧
    (∀ idf : String, pyLower idf ∉ reserved_keywords →
        get_pg_safe_identifier idf = idf) ∧
    (∀ schema : List String, ∀ idf : String, idf ∈ schema →
        get_pg_safe_identifier idf ∈ pgColNames schema) ∧
    get_pg_safe_identifier "user" = "\"user\"" ∧
    get_pg_safe_identifier "order" = "\"order\"" ∧
    get_pg_safe_identifier "group" = "\"group\"" ∧
    simpleQuoteCol "user" = "\"user\"" ∧
    simpleQuoteCol "order" = "\"order\"" ∧
    simpleQuoteCol "group" = "\"group\"" := by
  refine ⟨?_, ?_, ?_, by decide, by decide, by decide, by decide, by decide, by decide⟩
  · intro idf
    constructor
    · intro h
      by_cases hm : pyLower idf ∈ reserved_keywords
      · exact hm
      · exfalso
        unfold get_pg_safe_identifier at h
        rw [if_neg hm] at h
        have hlen := congrArg String.length h
        simp [String.length_append] at hlen
        have hq : ("\"" : String).length = 1 := by decide
        omega
    · intro hm
      unfold get_pg_safe_identifier
      rw [if_pos hm]
  · intro idf hm
    unfold get_pg_safe_identifier
    rw [if_neg hm]
  · intro schema idf h
    exact List.mem_map_of_mem get_pg_safe_identifier h

/-- Witness for claim C7: the unchanged branch at `"id"` and the generated
column list membership at `["id", "user"]`. -/
theorem identifier_quoting_contract_witness :
    (pyLower "id" ∉ reserved_keywords ∧ get_pg_safe_identifier "id" = "id") ∧
    ("user" ∈ ["id", "user"] ∧
      get_pg_safe_identifier "user" ∈ pgColNames ["id", "user"]) := by
  refine ⟨⟨by decide, identifier_quoting_contract.2.1 "id" (by decide)⟩,
          ⟨by decide, identifier_quoting_contract.2.2.1 ["id", "user"] "user" (by decide)⟩⟩

/-- Claim C8: for character/text targets every string value has exactly its
NUL bytes removed — the result is the characterwise filter that drops
`\x00` and keeps everything else in order — both in `convert_value` and in
the row-cleaning step; `"a\x00b"` becomes `"ab"`. -/
theorem nullbyte_stripping_contract :
    (∀ t c s : String,
        convert_value t c (.str s) "text" =
          .str ⟨s.data.filter (fun ch => ch ≠ nullChar)⟩ ∧
        convert_value t c (.str s) "character varying(255)" =
          .str ⟨s.data.filter (fun ch => ch ≠ nullChar)⟩) ∧
    (∀ s : String,
        cleanItem (.str s) = .str ⟨s.data.filter (fun ch => ch ≠ nullChar)⟩) ∧
    convert_value "t" "c" (.str "a\x00b") "text" = .str "ab" ∧
    cleanItem (.str "a\x00b") = .str "ab" := by
  have hrepl : ∀ s : String,
      pyReplaceChar s nullChar "" = ⟨s.data.filter (fun ch => ch ≠ nullChar)⟩ := by
    intro s
    simp only [pyReplaceChar]
    congr 1
    exact replaceCharList_nil s.data nullChar
  refine ⟨fun t c s => ⟨?_, ?_⟩, fun s => ?_, by decide, by decide⟩
  · show PyValue.str (pyReplaceChar s nullChar "") = _
    rw [hrepl]
  · show PyValue.str (pyReplaceChar s nullChar "") = _
    rw [hrepl]
  · show PyValue.str (pyReplaceChar s nullChar "") = _
    rw [hrepl]

/-- Claim C10: decoding bytes as UTF-8 with `errors='replace'` always
succeeds, so the latin1 fallback branch of the row-cleaning step is
unreachable and the cleaned value of a bytes cell is exactly the
replacement-mode UTF-8 decoding. -/
theorem bytes_cleaning_utf8_total :
    ∀ bs : List Nat, ∃ s,
      pyDecodeUtf8 true bs = Except.ok s ∧ cleanItem (.bytes bs) = .str s := by
  intro bs
  obtain ⟨s, hs⟩ := pyDecodeUtf8_replace_ok bs
  exact ⟨s, hs, by simp [cleanItem, hs]⟩

set_option maxRecDepth 100000 in
/-- Claim C1 fails on the code: in the spec's own scenario of 100 source
rows where only row 50 is rejected by the target, `openwebui-migration.py`
never rolls back after the failed insert, so every later insert of the
batch fails in the aborted transaction (51 rows reported failed) and the
batch commit discards the 49 pending rows — 0 rows land instead of 99;
`improved-data-transfer.py` instead rolls back on the failure, which
discards the 49 earlier uncommitted inserts — 50 rows land while
`success_count` reports 99. -/
theorem row_isolation_failing_input :
    (owMigrateTable rejectRow50 rows100).1.committed.length = 0 ∧
    (owMigrateTable rejectRow50 rows100).2.2 = 51 ∧
    (owMigrateTable rejectRow50 rows100).2.1 = 49 ∧
    (transferTable "chat" [("id", "integer")] rejectRow50 rows100).1.committed.length = 50 ∧
    (transferTable "chat" [("id", "integer")] rejectRow50 rows100).2 = 99 := by
  decide

set_option maxRecDepth 10000 in
/-- Claim C3 fails on the code: with 3 source rows of which the middle one
is rejected, `openwebui-migration.py` reports 2 failed and 1 migrated but
commits 0 rows (0 is not 3 - 2), and `improved-data-transfer.py` reports 2
successes (1 failure) but commits only 1 row (1 is not 3 - 1); the reported
tallies still satisfy migrated + failed = source count. -/
theorem row_count_failing_input :
    (owMigrateTable rejectMiddle rows3).2.2 = 2 ∧
    (owMigrateTable rejectMiddle rows3).2.1 = 1 ∧
    (owMigrateTable rejectMiddle rows3).1.committed.length = 0 ∧
    (transferTable "chat" [("id", "integer")] rejectMiddle rows3).2 = 2 ∧
    (transferTable "chat" [("id", "integer")] rejectMiddle rows3).1.committed.length = 1 := by
  decide

set_option maxRecDepth 10000 in
/-- Counterexample to claim C2 as stated: an `improved-data-transfer.py`
run with exactly one failed row still exits with status 0. -/
theorem exit_status_counterexample :
    transferFailedTotal rejectMiddle oneBadRowJob = 1 ∧
    transferExitStatus rejectMiddle oneBadRowJob = 0 := by
  decide

/-- Claim C2 amended: the exit-status contract holds for
`openwebui-migration.py` — its process exits 0 exactly when the completed
run counted zero failed rows — while `improved-data-transfer.py` exits 0
whenever its table loop completes, regardless of failed rows. -/
theorem exit_status_amended :
    (∀ (insertOk : Row → Bool) (tables : List (String × List Row)),
        owExitStatus insertOk tables = 0 ↔ (owMigrateRun insertOk tables).2 = 0) ∧
    (∀ (insertOk : Row → Bool) (tables : List TableJob),
        transferExitStatus insertOk tables = 0) := by
  constructor
  · intro insertOk tables
    unfold owExitStatus owMigrateReturn
    split <;> simp_all
  · intro insertOk tables
    rfl

/-- With positive chunk size and sufficient fuel, the batches cover the
list exactly. -/
theorem toBatchesAux_flatten (k : Nat) (hk : 0 < k) :
    ∀ fuel l, l.length ≤ fuel → (toBatchesAux k fuel l).flatten = l := by
  intro fuel
  induction fuel with
  | zero =>
    intro l h
    have hnil : l = [] := List.eq_nil_of_length_eq_zero (Nat.le_zero.mp h)
    subst hnil
    simp [toBatchesAux]
  | succ fuel ih =>
    intro l h
    cases l with
    | nil => simp [toBatchesAux]
    | cons a as =>
      simp only [toBatchesAux, List.flatten_cons]
      rw [ih]
      · exact List.take_append_drop k (a :: as)
      · simp only [List.length_drop, List.length_cons] at *
        omega

/-- The pagination reads every source row exactly once. -/
theorem toBatches_flatten (k : Nat) (hk : 0 < k) (l : List Row) :
    (toBatches k l).flatten = l :=
  toBatchesAux_flatten k hk l.length l le_rfl

/-- A batch in which every cleaned row is accepted adds all its rows to the
pending transaction and records no failure. -/
theorem owProcessBatch_all_ok (insertOk : Row → Bool) (st : PgState)
    (batch : List Row) (hab : st.aborted = false)
    (h : ∀ r ∈ batch, insertOk (r.map cleanItem) = true) :
    owProcessBatch insertOk st batch =
      ({ st with pending := st.pending ++ batch.map (fun r => r.map cleanItem) }, 0) := by
  induction batch generalizing st with
  | nil => simp [owProcessBatch]
  | cons r rs ih =>
    have hr : insertOk (r.map cleanItem) = true := h r (by simp)
    have hstep : pgExecInsert insertOk st (r.map cleanItem) =
        ({ st with pending := st.pending ++ [r.map cleanItem] }, true) := by
      simp [pgExecInsert, hab, hr]
    have hrest : ∀ x ∈ rs, insertOk (x.map cleanItem) = true :=
      fun x hx => h x (by simp [hx])
    have hind := ih { st with pending := st.pending ++ [r.map cleanItem] } hab hrest
    simp only [owProcessBatch, List.foldl_cons] at *
    rw [hstep] at *
    simp only [hstep]
    simpa [List.append_assoc] using hind

/-- Model validation: when no row of a table is rejected, the openwebui
migrator commits exactly the cleaned source rows, reports them all as
migrated, and reports zero failures. -/
theorem owMigrateTable_no_failures (insertOk : Row → Bool) (rows : List Row)
    (h : ∀ r ∈ rows, insertOk (r.map cleanItem) = true) :
    (owMigrateTable insertOk rows).1.committed =
        rows.map (fun r => r.map cleanItem) ∧
    (owMigrateTable insertOk rows).2.1 = rows.length ∧
    (owMigrateTable insertOk rows).2.2 = 0 := by
  have hstep : ∀ (C : List Row) (f : Nat) (batch : List Row),
      (∀ r ∈ batch, insertOk (r.map cleanItem) = true) →
      owTableStep insertOk (⟨C, [], false⟩, f) batch =
        (⟨C ++ batch.map (fun r => r.map cleanItem), [], false⟩, f) := by
    intro C f batch hb
    unfold owTableStep
    rw [owProcessBatch_all_ok insertOk ⟨C, [], false⟩ batch rfl hb]
    simp [pgCommit]
  have hfold : ∀ (bs : List (List Row)) (C : List Row) (f : Nat),
      (∀ batch ∈ bs, ∀ r ∈ batch, insertOk (r.map cleanItem) = true) →
      bs.foldl (owTableStep insertOk) (⟨C, [], false⟩, f) =
        (⟨C ++ bs.flatten.map (fun r => r.map cleanItem), [], false⟩, f) := by
    intro bs
    induction bs with
    | nil =>
      intro C f hb
      simp
    | cons b bs ih =>
      intro C f hb
      rw [List.foldl_cons, hstep C f b (hb b (by simp)),
          ih (C ++ b.map (fun r => r.map cleanItem)) f
            (fun batch hbatch => hb batch (by simp [hbatch]))]
      simp [List.append_assoc]
  have hmem : ∀ batch ∈ toBatches BATCH_SIZE rows, ∀ r ∈ batch,
      insertOk (r.map cleanItem) = true := by
    intro batch hbatch r hr
    apply h
    have hrf : r ∈ (toBatches BATCH_SIZE rows).flatten :=
      List.mem_flatten.mpr ⟨batch, hbatch, hr⟩
    rwa [toBatches_flatten BATCH_SIZE (by decide) rows] at hrf
  have hrun := hfold (toBatches BATCH_SIZE rows) [] 0 hmem
  unfold owMigrateTable
  rw [show pgInit = (⟨[], [], false⟩ : PgState) from rfl, hrun,
      toBatches_flatten BATCH_SIZE (by decide) rows]
  simp

/-- Model validation: when no converted row of a table is rejected, the
improved transfer commits exactly the converted source rows and counts
every row as a success. -/
theorem transferTable_no_failures (tn : String) (cols : List ColSpec)
    (insertOk : Row → Bool) (rows : List Row)
    (h : ∀ r ∈ rows, insertOk (convertRow tn cols r) = true) :
    (transferTable tn cols insertOk rows).1.committed =
        rows.map (convertRow tn cols) ∧
    (transferTable tn cols insertOk rows).2 = rows.length := by
  have hfold : ∀ (rs : List Row) (st : PgState) (n : Nat), st.aborted = false →
      (∀ r ∈ rs, insertOk (convertRow tn cols r) = true) →
      rs.foldl (transferRowStep tn cols insertOk) (st, n) =
        ({ st with pending := st.pending ++ rs.map (convertRow tn cols) },
         n + rs.length) := by
    intro rs
    induction rs with
    | nil =>
      intro st n hab hr
      simp
    | cons r rs ih =>
      intro st n hab hr
      have hok : insertOk (convertRow tn cols r) = true := hr r (by simp)
      have hstep : transferRowStep tn cols insertOk (st, n) r =
          ({ st with pending := st.pending ++ [convertRow tn cols r] }, n + 1) := by
        unfold transferRowStep
        simp [pgExecInsert, hab, hok]
      rw [List.foldl_cons, hstep,
          ih { st with pending := st.pending ++ [convertRow tn cols r] } (n + 1) hab
            (fun x hx => hr x (by simp [hx]))]
      simp [List.append_assoc]
      omega
  unfold transferTable
  rw [show pgInit = (⟨[], [], false⟩ : PgState) from rfl,
      hfold rows ⟨[], [], false⟩ 0 rfl h]
  simp [pgCommit]
